import Mathlib

/-!
Shallow embedding of the analog-qec resource-estimation library
(analog_simulator.py, digital_resource_estimator.py, report_generator.py).

Python floats are modelled as exact rationals (ℚ) where the computation is
rational, and as reals (ℝ) where transcendental functions (log, exp) appear.
Python exceptions (ValueError, ZeroDivisionError) are modelled with
`Except String`.
-/

/-- Python `int(x)` on a float: truncation toward zero. -/
def pyInt (q : ℚ) : ℤ := if 0 ≤ q then ⌊q⌋ else ⌈q⌉

/-- Python float division `x / y`: raises ZeroDivisionError when `y == 0`. -/
def pyDiv (x y : ℚ) : Except String ℚ :=
if y = 0 then .error "ZeroDivisionError" else .ok (x / y)

/-! ## analog_simulator.py -/

/-- The `AnalogSimulatorConfig` dataclass (fields with their source defaults). -/
structure AnalogSimulatorConfig where
  circuit_width : ℕ
  qubit_t1_times : Option (List ℚ) := none
  default_t1 : ℚ := 100
  measurement_error_rate : ℚ := 1/100
  target_fidelity : ℚ := 99/100
  max_runtime_multiplier : ℚ := 1
deriving Repr, DecidableEq

/-- Source `AnalogSimulatorConfig.__post_init__`: fill `qubit_t1_times` with
`circuit_width` copies of `default_t1` when absent, else require the length
to match `circuit_width` (ValueError otherwise). -/
def AnalogSimulatorConfig.postInit (c : AnalogSimulatorConfig) :
    Except String AnalogSimulatorConfig :=
match c.qubit_t1_times with
| none => .ok { c with qubit_t1_times := some (List.replicate c.circuit_width c.default_t1) }
| some ts =>
    if ts.length ≠ c.circuit_width then
      .error "ValueError: number of T1 times must match circuit width"
    else .ok c

/-- Source `sum(1.0 / t1 for t1 in qubit_t1_times)`: left-to-right sum of
reciprocals, raising ZeroDivisionError at the first zero element. -/
def sumReciprocals : List ℚ → Except String ℚ
| [] => .ok 0
| t :: ts =>
    if t = 0 then .error "ZeroDivisionError"
    else do
      let rest ← sumReciprocals ts
      pure (1 / t + rest)

/-- Source `AnalogSimulator._calculate_system_t1`: `1.0 / reciprocal_sum`
(ZeroDivisionError when the sum is zero, e.g. for an empty list). -/
def calculate_system_t1 (ts : List ℚ) : Except String ℚ := do
  let s ← sumReciprocals ts
  if s = 0 then .error "ZeroDivisionError" else pure (1 / s)

/-- The `AnalogSimulator` object after `__init__` has run: the config plus
the derived `_system_t1` and `_feasible_runtime`. -/
structure AnalogSimulator where
  config : AnalogSimulatorConfig
  system_t1 : ℚ
  feasible_runtime : ℚ
deriving Repr, DecidableEq

/-- Source `AnalogSimulator.__init__`: run the config `__post_init__`, then
`_calculate_system_t1` and `_calculate_feasible_runtime`
(`system_t1 * max_runtime_multiplier`). -/
def mkAnalogSimulator (c : AnalogSimulatorConfig) : Except String AnalogSimulator := do
  let c ← c.postInit
  let t1 ← calculate_system_t1 (c.qubit_t1_times.getD [])
  pure { config := c, system_t1 := t1, feasible_runtime := t1 * c.max_runtime_multiplier }

/-- Source `AnalogSimulator.get_decoherence_error(runtime)`:
`1 - exp(-runtime / system_t1)`, with `runtime` defaulting to
`feasible_runtime`. -/
noncomputable def AnalogSimulator.get_decoherence_error
    (s : AnalogSimulator) (runtime : Option ℝ) : ℝ :=
  let r : ℝ := runtime.getD (s.feasible_runtime : ℝ)
  1 - Real.exp (-r / (s.system_t1 : ℝ))

/-- Source `AnalogSimulator.get_total_error(runtime)`: just the decoherence error. -/
noncomputable def AnalogSimulator.get_total_error
    (s : AnalogSimulator) (runtime : Option ℝ) : ℝ :=
  s.get_decoherence_error runtime

/-- Source `AnalogSimulator.get_fidelity(runtime)`: `1 - total_error(runtime)`. -/
noncomputable def AnalogSimulator.get_fidelity
    (s : AnalogSimulator) (runtime : Option ℝ) : ℝ :=
  1 - s.get_total_error runtime

/-! ## digital_resource_estimator.py -/

/-- The `DigitalResourceConfig` dataclass (fields with their source defaults). -/
structure DigitalResourceConfig where
  logical_qubits : ℤ
  target_runtime : ℚ
  digital_error_rate : ℚ
  target_logical_error_rate : ℚ := 1 / 10^10
  code_distance : Option ℤ := none
  qubits_per_logical : Option ℤ := none
  magic_state_error_threshold : ℚ := 1/1000
  t_gate_count : ℤ := 100
  magic_state_overhead_factor : ℚ := 2
  compilation_overhead_factor : ℚ := 3/2
  physical_gate_time : ℚ := 1/10
  logical_gate_time : Option ℚ := none
  error_correction_cycle_time : Option ℚ := none
deriving Repr, DecidableEq

/-- Source `if d % 2 == 0: d += 1` — round an integer up to the nearest odd one. -/
def nextOdd (d : ℤ) : ℤ := if d % 2 = 0 then d + 1 else d

/-- Source `DigitalResourceConfig._calculate_code_distance`: raise a ValueError when
`digital_error_rate >= 0.01`; otherwise
`d = int(np.ceil(2 * np.log(1.0 / p_L) / np.log(p_th / p)))`, made odd, then
`max(d, 3)`. -/
noncomputable def calculate_code_distance (p p_L : ℚ) : Except String ℤ :=
if 1/100 ≤ p then
  .error "ValueError: physical error rate must be below threshold"
else
  let log_ratio : ℝ := Real.log ((1/100 : ℝ) / (p : ℝ))
  let d : ℤ := ⌈2 * Real.log (1 / (p_L : ℝ)) / log_ratio⌉
  .ok (max (nextOdd d) 3)

/-- Source `DigitalResourceConfig.__post_init__`: resolve, in order,
`code_distance` (derived when absent — the only step that can raise),
`qubits_per_logical = 2 * d**2`, `logical_gate_time` and
`error_correction_cycle_time = d * physical_gate_time`, each only when
absent. -/
noncomputable def DigitalResourceConfig.postInit (c : DigitalResourceConfig) :
    Except String DigitalResourceConfig := do
  let d ← match c.code_distance with
    | some d => pure d
    | none => calculate_code_distance c.digital_error_rate c.target_logical_error_rate
  let qpl : ℤ := c.qubits_per_logical.getD (2 * d ^ 2)
  let lgt : ℚ := c.logical_gate_time.getD ((d : ℚ) * c.physical_gate_time)
  let ect : ℚ := c.error_correction_cycle_time.getD ((d : ℚ) * c.physical_gate_time)
  pure { c with
    code_distance := some d
    qubits_per_logical := some qpl
    logical_gate_time := some lgt
    error_correction_cycle_time := some ect }

/-- The `DigitalResourceEstimator` object after `__init__` has run: the
(resolved) config plus all fields `_calculate_resources` fills in. -/
structure DigitalResourceEstimator where
  config : DigitalResourceConfig
  data_qubits : ℤ
  magic_state_qubits : ℤ
  compilation_qubits : ℤ
  total_physical_qubits : ℤ
  logical_gate_count : ℤ
  space_time_volume : ℚ
deriving Repr, DecidableEq

/-- Source `DigitalResourceEstimator._calculate_resources`, operating on a resolved
config (the dataclass always runs `__post_init__` before the estimator sees
it, so the optional fields read here are present; `getD` supplies a junk
default only to totalize).  `int(...)` is Python truncation; the division by
`logical_gate_time` raises ZeroDivisionError when that is zero. -/
def calculate_resources (c : DigitalResourceConfig) :
    Except String DigitalResourceEstimator :=
  let qpl : ℤ := c.qubits_per_logical.getD 0
  let data : ℤ := c.logical_qubits * qpl
  let magic : ℤ := pyInt ((c.t_gate_count : ℚ) * c.magic_state_overhead_factor * (qpl : ℚ))
  let comp : ℤ := pyInt ((data : ℚ) * (c.compilation_overhead_factor - 1))
  let total : ℤ := data + magic + comp
  let lgt : ℚ := c.logical_gate_time.getD 0
  if lgt = 0 then .error "ZeroDivisionError"
  else
    .ok { config := c
          data_qubits := data
          magic_state_qubits := magic
          compilation_qubits := comp
          total_physical_qubits := total
          logical_gate_count := pyInt (c.target_runtime / lgt)
          space_time_volume := (total : ℚ) * c.target_runtime }

/-- Source `DigitalResourceEstimator(DigitalResourceConfig(...))`: dataclass
`__post_init__` followed by `__init__`/`_calculate_resources`. -/
noncomputable def mkDigitalResourceEstimator (c : DigitalResourceConfig) :
    Except String DigitalResourceEstimator :=
  c.postInit.bind calculate_resources

/-- Source `DigitalResourceEstimator.get_wall_clock_time`:
`target_runtime * (stabilization_overhead * magic_state_time_factor * 1.5)`
with `stabilization_overhead = 1 + d/10` and
`magic_state_time_factor = 1 + magic_state_overhead_factor * 0.1`. -/
def DigitalResourceEstimator.get_wall_clock_time (e : DigitalResourceEstimator) : ℚ :=
  let d : ℤ := e.config.code_distance.getD 0
  let stabilization_overhead : ℚ := 1 + (d : ℚ) / 10
  let magic_state_time_factor : ℚ := 1 + e.config.magic_state_overhead_factor * (1/10)
  let trotter_overhead_factor : ℚ := 3/2
  e.config.target_runtime *
    (stabilization_overhead * magic_state_time_factor * trotter_overhead_factor)

/-! ## report_generator.py (comparison section) -/

/-- Round-half-to-even on an exact rational (Python `round`'s tie rule). -/
def roundHalfEven (q : ℚ) : ℤ :=
  let f : ℤ := ⌊q⌋
  let frac : ℚ := q - (f : ℚ)
  if frac < 1/2 then f
  else if 1/2 < frac then f + 1
  else if f % 2 = 0 then f else f + 1

/-- Python `round(x, n)` modelled on exact rationals. -/
def pyRound (q : ℚ) (n : ℕ) : ℚ := (roundHalfEven (q * 10 ^ n) : ℚ) / 10 ^ n

/-- The `report['comparison']` mapping of `generate_comparison_report`
(field names follow the source keys; `_rel` stands in for the source's
"ratio" wording). -/
structure ComparisonSection where
  qubit_count_rel : ℚ
  runtime_rel : ℚ
  analog_faster : Bool
  analog_qubit_seconds : ℚ
  digital_qubit_seconds : ℚ
  space_time_rel : ℚ
deriving Repr, DecidableEq

/-- Lines 99-123 of `generate_comparison_report`: `runtime_ratio` is computed
first (`target_runtime / feasible_runtime`, ZeroDivisionError when the analog
feasible runtime is 0), then the comparison mapping with its qubit-count and
space-time divisions, every displayed value passed through `round(x, 2)`. -/
def generate_comparison_section (a : AnalogSimulator)
    (e : DigitalResourceEstimator) : Except String ComparisonSection := do
  let runtime_rel ← pyDiv e.config.target_runtime a.feasible_runtime
  let qubit_count_rel ← pyDiv (e.total_physical_qubits : ℚ) (a.config.circuit_width : ℚ)
  let analog_qs : ℚ := (a.config.circuit_width : ℚ) * (a.feasible_runtime / 1000000)
  let digital_qs : ℚ := e.space_time_volume / 1000000
  let st_rel ← pyDiv digital_qs analog_qs
  pure { qubit_count_rel := pyRound qubit_count_rel 2
         runtime_rel := pyRound runtime_rel 2
         analog_faster := decide (1 < runtime_rel)
         analog_qubit_seconds := pyRound analog_qs 2
         digital_qubit_seconds := pyRound digital_qs 2
         space_time_rel := pyRound st_rel 2 }

/-- Whether an `Except` computation succeeded (no exception raised). -/
def exceptOk {ε α : Type} : Except ε α → Bool
| .ok _ => true
| .error _ => false

/-! ## Concrete objects used in witnesses -/

/-- An analog simulator built with `max_runtime_multiplier = 0` (the result
of `mkAnalogSimulator` on that config). -/
def analogZeroMult : AnalogSimulator :=
  { config := { circuit_width := 1, qubit_t1_times := some [100],
                max_runtime_multiplier := 0 }
    system_t1 := 100
    feasible_runtime := 0 }

/-- A concrete resolved digital estimator (code distance 3, one logical
qubit), as produced by the construction pipeline. -/
def estimatorB : DigitalResourceEstimator :=
  { config := { logical_qubits := 1, target_runtime := 1,
                digital_error_rate := 1/1000, code_distance := some 3,
                qubits_per_logical := some 18,
                logical_gate_time := some (3/10),
                error_correction_cycle_time := some (3/10) }
    data_qubits := 18
    magic_state_qubits := 3600
    compilation_qubits := 9
    total_physical_qubits := 3627
    logical_gate_count := 3
    space_time_volume := 3627 }

/-! ## Helper lemmas: Except monad reductions -/

@[simp] theorem exceptOkBind {ε α β : Type} (a : α) (f : α → Except ε β) :
    (do let x ← (Except.ok a : Except ε α); f x) = f a := rfl

@[simp] theorem exceptErrorBind {ε α β : Type} (e : ε) (f : α → Except ε β) :
    (do let x ← (Except.error e : Except ε α); f x) = Except.error e := rfl

@[simp] theorem exceptPureEq {ε α : Type} (a : α) :
    (pure a : Except ε α) = Except.ok a := rfl

/-! ## Helper lemmas: analog side -/

theorem sumReciprocals_of_not_mem (l : List ℚ) (h : (0:ℚ) ∉ l) :
    sumReciprocals l = .ok ((l.map fun t => 1/t).sum) := by
  induction l with
  | nil => simp [sumReciprocals]
  | cons t ts ih =>
      have ht : t ≠ 0 := fun h0 => h (h0 ▸ List.mem_cons_self t ts)
      have hts : (0:ℚ) ∉ ts := fun h0 => h (List.mem_cons_of_mem t h0)
      simp [sumReciprocals, ht, ih hts, Except.bind, pure, Except.pure]

theorem sumReciprocals_of_mem (l : List ℚ) (h : (0:ℚ) ∈ l) :
    sumReciprocals l = .error "ZeroDivisionError" := by
  induction l with
  | nil => cases h
  | cons t ts ih =>
      by_cases ht : t = 0
      · simp [sumReciprocals, ht]
      · have hts : (0:ℚ) ∈ ts := by
          cases List.mem_cons.mp h with
          | inl h0 => exact absurd h0.symm ht
          | inr h0 => exact h0
        simp [sumReciprocals, ht, ih hts, Except.bind]

theorem recipSum_pos (l : List ℚ) (hne : l ≠ []) (hpos : ∀ t ∈ l, 0 < t) :
    0 < (l.map fun t => 1/t).sum := by
  induction l with
  | nil => exact absurd rfl hne
  | cons t ts ih =>
      have ht : 0 < t := hpos t (List.mem_cons_self t ts)
      have h1t : 0 < 1 / t := by positivity
      rcases List.eq_nil_or_concat ts with h | _
      · subst h; simpa using h1t
      · by_cases hts : ts = []
        · subst hts; simpa using h1t
        · have := ih hts (fun x hx => hpos x (List.mem_cons_of_mem t hx))
          simp only [List.map_cons, List.sum_cons]
          linarith

theorem recipSum_nonneg (l : List ℚ) (hpos : ∀ t ∈ l, 0 < t) :
    0 ≤ (l.map fun t => 1/t).sum := by
  induction l with
  | nil => simp
  | cons t ts ih =>
      have ht : 0 < t := hpos t (List.mem_cons_self t ts)
      have := ih (fun x hx => hpos x (List.mem_cons_of_mem t hx))
      have h1t : 0 ≤ 1 / t := by positivity
      simp only [List.map_cons, List.sum_cons]
      linarith

theorem one_div_mem_le_recipSum (l : List ℚ) (t : ℚ) (htl : t ∈ l)
    (hpos : ∀ x ∈ l, 0 < x) : 1 / t ≤ (l.map fun x => 1/x).sum := by
  induction l with
  | nil => cases htl
  | cons u us ih =>
      have hrest : 0 ≤ (us.map fun x => 1/x).sum :=
        recipSum_nonneg us (fun x hx => hpos x (List.mem_cons_of_mem u hx))
      simp only [List.map_cons, List.sum_cons]
      cases List.mem_cons.mp htl with
      | inl h =>
          subst h; linarith
      | inr h =>
          have hu : 0 < u := hpos u (List.mem_cons_self u us)
          have h1u : 0 ≤ 1 / u := by positivity
          have := ih h (fun x hx => hpos x (List.mem_cons_of_mem u hx))
          linarith

theorem recipSum_const (l : List ℚ) (t1 : ℚ) (h : ∀ t ∈ l, t = t1) :
    (l.map fun t => 1/t).sum = l.length * (1 / t1) := by
  induction l with
  | nil => simp
  | cons u us ih =>
      have hu : u = t1 := h u (List.mem_cons_self u us)
      have := ih (fun x hx => h x (List.mem_cons_of_mem u hx))
      simp only [List.map_cons, List.sum_cons, List.length_cons, hu, this]
      push_cast
      ring

theorem mkAnalogSimulator_of_pos (c : AnalogSimulatorConfig) (l : List ℚ)
    (hl : c.qubit_t1_times = some l) (hw : l.length = c.circuit_width)
    (hne : l ≠ []) (hpos : ∀ t ∈ l, 0 < t) :
    mkAnalogSimulator c =
      .ok { config := c
            system_t1 := 1 / (l.map fun t => 1/t).sum
            feasible_runtime := 1 / (l.map fun t => 1/t).sum * c.max_runtime_multiplier } := by
  have h0 : (0:ℚ) ∉ l := fun h => by
    have := hpos 0 h; exact absurd this (by norm_num)
  have hsum : (l.map fun t => 1/t).sum ≠ 0 := ne_of_gt (recipSum_pos l hne hpos)
  have hsum' : (l.map fun t => t⁻¹).sum ≠ 0 := by simpa [one_div] using hsum
  simp [mkAnalogSimulator, AnalogSimulatorConfig.postInit, hl, hw,
    calculate_system_t1, sumReciprocals_of_not_mem l h0, hsum']

/-! ## Claim C4 -/

/-- Claim C4: for every AnalogSimulator built from a config whose
`qubit_t1_times` are all positive and match `circuit_width`, `system_t1`
equals `1 / (sum of 1/t1_i)`; hence `system_t1 ≤ min(t1_i)` and
`system_t1 = t1 / n` when all `n` values equal a common `t1`; and the
concrete scenario `circuit_width = 5`, all T1 = 100 μs,
`max_runtime_multiplier = 1` yields `system_t1 = 20` μs and
`feasible_runtime = 20` μs. -/
theorem claim_C4_system_t1 :
    (∀ (c : AnalogSimulatorConfig) (l : List ℚ),
      c.qubit_t1_times = some l → l.length = c.circuit_width →
      l ≠ [] → (∀ t ∈ l, 0 < t) →
      ∃ s, mkAnalogSimulator c = .ok s ∧
        s.system_t1 = 1 / (l.map fun t => 1/t).sum ∧
        (∀ t ∈ l, s.system_t1 ≤ t) ∧
        (∀ t1, (∀ t ∈ l, t = t1) → s.system_t1 = t1 / l.length)) ∧
    (mkAnalogSimulator
        { circuit_width := 5, qubit_t1_times := some [100, 100, 100, 100, 100] }).map
      (fun s => (s.system_t1, s.feasible_runtime)) = .ok (20, 20) := by
  constructor
  · intro c l hl hw hne hpos
    refine ⟨_, mkAnalogSimulator_of_pos c l hl hw hne hpos, rfl, ?_, ?_⟩
    · intro t ht
      have hSpos : 0 < (l.map fun x => 1/x).sum := recipSum_pos l hne hpos
      have htpos : 0 < t := hpos t ht
      have h1t : 1 / t ≤ (l.map fun x => 1/x).sum := one_div_mem_le_recipSum l t ht hpos
      have := one_div_le_one_div_of_le (by positivity : 0 < 1 / t) h1t
      simpa [one_div_one_div] using this
    · intro t1 hconst
      obtain ⟨u, hu⟩ := List.exists_mem_of_ne_nil l hne
      have ht1 : 0 < t1 := hconst u hu ▸ hpos u hu
      have hn : (l.length : ℚ) ≠ 0 :=
        Nat.cast_ne_zero.mpr (List.length_pos.mpr hne).ne'
      rw [recipSum_const l t1 hconst]
      field_simp
  · have h := mkAnalogSimulator_of_pos
        { circuit_width := 5, qubit_t1_times := some [100, 100, 100, 100, 100] }
        [100, 100, 100, 100, 100] rfl rfl (by simp)
        (by intro t ht
            simp only [List.mem_cons, List.not_mem_nil, or_false] at ht
            rcases ht with h | h | h | h | h <;> rw [h] <;> norm_num)
    rw [h]
    norm_num [Except.map]

/-- Witness for claim C4 at a concrete non-uniform input. -/
theorem claim_C4_system_t1_witness :
    ∃ s, mkAnalogSimulator { circuit_width := 2, qubit_t1_times := some [50, 200] } = .ok s ∧
      s.system_t1 = 1 / (([50, 200] : List ℚ).map fun t => 1/t).sum ∧
      (∀ t ∈ ([50, 200] : List ℚ), s.system_t1 ≤ t) ∧
      (∀ t1, (∀ t ∈ ([50, 200] : List ℚ), t = t1) →
        s.system_t1 = t1 / ([50, 200] : List ℚ).length) :=
  claim_C4_system_t1.1 _ [50, 200] rfl rfl (by simp)
    (by intro t ht
        simp only [List.mem_cons, List.not_mem_nil, or_false] at ht
        rcases ht with h | h <;> rw [h] <;> norm_num)

/-! ## Claim C5 -/

/-- Counterexample to claim C5: the config `circuit_width = 1`,
`qubit_t1_times = [-100]` has a non-positive T1 value, yet construction
succeeds (no domain error) and silently produces `system_t1 = -100`. -/
theorem claim_C5_counterexample :
    (mkAnalogSimulator { circuit_width := 1, qubit_t1_times := some [-100] }).map
      (fun s => s.system_t1) = .ok (-100) := by
  norm_num [mkAnalogSimulator, AnalogSimulatorConfig.postInit, calculate_system_t1,
    sumReciprocals, Except.map]

/-- Claim C5 as amended: construction of the AnalogSimulator fails (with a
ZeroDivisionError) exactly when some `t1_i = 0` or the reciprocals sum to 0
(in particular when the sequence is empty); strictly negative T1 values with
a nonzero reciprocal sum are accepted silently.  The error, when it occurs,
is raised during construction. -/
theorem claim_C5_amended :
    ∀ (c : AnalogSimulatorConfig) (l : List ℚ),
      c.qubit_t1_times = some l → l.length = c.circuit_width →
      (exceptOk (mkAnalogSimulator c) = false ↔
        (0 ∈ l ∨ (l.map fun t => 1/t).sum = 0)) := by
  intro c l hl hw
  by_cases h0 : (0:ℚ) ∈ l
  · simp [mkAnalogSimulator, AnalogSimulatorConfig.postInit, hl, hw,
      calculate_system_t1, sumReciprocals_of_mem l h0, exceptOk, h0]
  · by_cases hs : (l.map fun t => 1/t).sum = 0
    · have hs' : (l.map fun t => t⁻¹).sum = 0 := by simpa [one_div] using hs
      simp [mkAnalogSimulator, AnalogSimulatorConfig.postInit, hl, hw,
        calculate_system_t1, sumReciprocals_of_not_mem l h0, hs', exceptOk, hs]
    · have hs' : ¬ (l.map fun t => t⁻¹).sum = 0 := by simpa [one_div] using hs
      simp [mkAnalogSimulator, AnalogSimulatorConfig.postInit, hl, hw,
        calculate_system_t1, sumReciprocals_of_not_mem l h0, hs', exceptOk, h0, hs]

/-- Witness for the amended claim C5: a zero T1 value makes construction
fail. -/
theorem claim_C5_amended_witness :
    exceptOk (mkAnalogSimulator { circuit_width := 1, qubit_t1_times := some [0] }) = false :=
  (claim_C5_amended _ [0] rfl rfl).mpr (Or.inl (by simp))

/-! ## Claim C8 -/

/-- Claim C8: for every AnalogSimulator and every runtime `r` (including the
default), `get_fidelity r + get_decoherence_error r = 1`, and
`get_decoherence_error 0 = 0`. -/
theorem claim_C8_fidelity_complement :
    ∀ (s : AnalogSimulator) (r : Option ℝ),
      s.get_fidelity r + s.get_decoherence_error r = 1 ∧
      s.get_decoherence_error (some 0) = 0 := by
  intro s r
  constructor
  · simp only [AnalogSimulator.get_fidelity, AnalogSimulator.get_total_error]
    ring
  · simp [AnalogSimulator.get_decoherence_error]

/-! ## Claim C10 -/

/-- Claim C10: `measurement_error_rate` and `target_fidelity` influence no
output: construction on a config differing only in those two fields yields
the same result (up to the recorded config itself), every derived query
(`system_t1`, `feasible_runtime`, decoherence/total error, fidelity) is
unchanged, and `get_total_error` coincides with `get_decoherence_error`
everywhere, ignoring measurement error entirely. -/
theorem claim_C10_measurement_error_ignored :
    ∀ (c : AnalogSimulatorConfig) (m f : ℚ),
      (mkAnalogSimulator { c with measurement_error_rate := m, target_fidelity := f } =
        (mkAnalogSimulator c).map
          (fun s => { s with config :=
            { s.config with measurement_error_rate := m, target_fidelity := f } })) ∧
      (∀ (s : AnalogSimulator) (r : Option ℝ),
        AnalogSimulator.get_decoherence_error
            { s with config :=
              { s.config with measurement_error_rate := m, target_fidelity := f } } r =
          s.get_decoherence_error r ∧
        AnalogSimulator.get_total_error
            { s with config :=
              { s.config with measurement_error_rate := m, target_fidelity := f } } r =
          s.get_total_error r ∧
        AnalogSimulator.get_fidelity
            { s with config :=
              { s.config with measurement_error_rate := m, target_fidelity := f } } r =
          s.get_fidelity r) ∧
      (∀ (s : AnalogSimulator) (r : Option ℝ),
        s.get_total_error r = s.get_decoherence_error r) := by
  intro c m f
  refine ⟨?_, fun s r => ⟨rfl, rfl, rfl⟩, fun s r => rfl⟩
  rcases c with ⟨w, ts, dt1, mer, tf, mrm⟩
  cases ts with
  | none =>
      simp only [mkAnalogSimulator, AnalogSimulatorConfig.postInit, exceptOkBind]
      cases hc : calculate_system_t1 (List.replicate w dt1) <;>
        simp [hc, Except.map]
  | some l =>
      simp only [mkAnalogSimulator, AnalogSimulatorConfig.postInit]
      by_cases hlen : l.length ≠ w
      · simp [hlen, Except.map]
      · simp only [hlen, if_false, exceptOkBind]
        cases hc : calculate_system_t1 l <;> simp [hc, Except.map]

/-! ## Helper lemmas: digital side -/

theorem nextOdd_odd (d : ℤ) : Odd (nextOdd d) := by
  unfold nextOdd
  split <;> rw [Int.odd_iff] <;> omega

theorem nextOdd_mono {d1 d2 : ℤ} (h : d1 ≤ d2) : nextOdd d1 ≤ nextOdd d2 := by
  unfold nextOdd
  split <;> split <;> omega

theorem odd_max_three {d : ℤ} (h : Odd d) : Odd (max d 3) := by
  rcases le_total d 3 with h3 | h3
  · rw [max_eq_right h3]; exact ⟨1, by ring⟩
  · rw [max_eq_left h3]; exact h

/-! ## Claim C1 -/

/-- Counterexample to claim C1: with `digital_error_rate = 0.02` (above the
0.01 threshold) but an explicitly supplied `code_distance = 3`, construction
of the DigitalResourceConfig succeeds — no configuration error is raised,
because the threshold check lives inside `_calculate_code_distance`, which
is skipped when `code_distance` is given. -/
theorem claim_C1_counterexample :
    (DigitalResourceConfig.postInit
        { logical_qubits := 1, target_runtime := 1, digital_error_rate := 2/100,
          code_distance := some 3 }).map
      (fun c => c.code_distance) = .ok (some 3) := by
  simp [DigitalResourceConfig.postInit, Except.map]

/-- Claim C1 as amended: when `code_distance` is unset, any
`digital_error_rate ≥ 0.01` makes construction raise the configuration
error (before any derived field is resolved); but when `code_distance` is
explicitly supplied, no threshold validation occurs and construction always
succeeds. -/
theorem claim_C1_amended :
    ∀ c : DigitalResourceConfig,
      (c.code_distance = none → 1/100 ≤ c.digital_error_rate →
        DigitalResourceConfig.postInit c =
          .error "ValueError: physical error rate must be below threshold") ∧
      (∀ k, c.code_distance = some k →
        exceptOk (DigitalResourceConfig.postInit c) = true) := by
  intro c
  constructor
  · intro hnone hp
    have hp' : (100:ℚ)⁻¹ ≤ c.digital_error_rate := by rwa [one_div] at hp
    simp [DigitalResourceConfig.postInit, hnone, calculate_code_distance, hp']
  · intro k hk
    simp [DigitalResourceConfig.postInit, hk, exceptOk]

/-- Witness for the amended claim C1: `digital_error_rate = 0.02` with
`code_distance` unset raises at construction. -/
theorem claim_C1_amended_witness :
    DigitalResourceConfig.postInit
        { logical_qubits := 1, target_runtime := 1, digital_error_rate := 2/100 } =
      .error "ValueError: physical error rate must be below threshold" :=
  (claim_C1_amended _).1 rfl (by norm_num)

/-! ## Claim C2 -/

/-- Claim C2: for `code_distance` unset and `0 < digital_error_rate < 0.01`
(and a positive target logical error rate), the auto-derived code distance
equals `ceil(2 ln(1/p_L) / ln(0.01/p))` rounded up to the next odd integer
and floored at 3; consequently it is odd and `≥ 3`, and decreasing the
target logical error rate never decreases it. -/
theorem claim_C2_code_distance :
    ∀ (p pL pL' : ℚ), 0 < p → p < 1/100 → 0 < pL → 0 < pL' →
      (calculate_code_distance p pL =
        .ok (max (nextOdd ⌈2 * Real.log (1 / (pL : ℝ)) /
              Real.log ((1/100 : ℝ) / (p : ℝ))⌉) 3)) ∧
      (∀ d, calculate_code_distance p pL = .ok d → Odd d ∧ 3 ≤ d) ∧
      (pL' ≤ pL → ∀ d d', calculate_code_distance p pL = .ok d →
        calculate_code_distance p pL' = .ok d' → d ≤ d') := by
  intro p pL pL' hp hplt hpL hpL'
  have hnle : ¬ (1/100 ≤ p) := not_le.mpr hplt
  have hcalc : ∀ q : ℚ, calculate_code_distance p q =
      .ok (max (nextOdd ⌈2 * Real.log (1 / (q : ℝ)) /
            Real.log ((1/100 : ℝ) / (p : ℝ))⌉) 3) := by
    intro q
    unfold calculate_code_distance
    rw [if_neg hnle]
  refine ⟨hcalc pL, ?_, ?_⟩
  · intro d hd
    rw [hcalc pL] at hd
    injection hd with hd
    subst hd
    exact ⟨odd_max_three (nextOdd_odd _), le_max_right _ 3⟩
  · intro hle d d' hd hd'
    rw [hcalc pL] at hd
    rw [hcalc pL'] at hd'
    injection hd with hd
    injection hd' with hd'
    subst hd
    subst hd'
    have hpR : (0:ℝ) < (p : ℝ) := by exact_mod_cast hp
    have hpltR : (p : ℝ) < 1/100 := by
      rw [show (1/100 : ℝ) = ((1/100 : ℚ) : ℝ) by norm_num]
      exact_mod_cast hplt
    have hR : (1:ℝ) < (1/100 : ℝ) / (p : ℝ) := (one_lt_div hpR).mpr hpltR
    have hlogR : (0:ℝ) < Real.log ((1/100 : ℝ) / (p : ℝ)) := Real.log_pos hR
    have hpLR : (0:ℝ) < (pL : ℝ) := by exact_mod_cast hpL
    have hpL'R : (0:ℝ) < (pL' : ℝ) := by exact_mod_cast hpL'
    have hleR : (pL' : ℝ) ≤ (pL : ℝ) := by exact_mod_cast hle
    have hinv : 1 / (pL : ℝ) ≤ 1 / (pL' : ℝ) := one_div_le_one_div_of_le hpL'R hleR
    have hlog : Real.log (1 / (pL : ℝ)) ≤ Real.log (1 / (pL' : ℝ)) :=
      (Real.log_le_log_iff (by positivity) (by positivity)).mpr hinv
    have hnum : 2 * Real.log (1 / (pL : ℝ)) ≤ 2 * Real.log (1 / (pL' : ℝ)) := by
      linarith
    have hdiv : 2 * Real.log (1 / (pL : ℝ)) / Real.log ((1/100 : ℝ) / (p : ℝ)) ≤
        2 * Real.log (1 / (pL' : ℝ)) / Real.log ((1/100 : ℝ) / (p : ℝ)) :=
      (div_le_div_iff_of_pos_right hlogR).mpr hnum
    exact max_le_max (nextOdd_mono (Int.ceil_mono hdiv)) le_rfl

/-- Witness for claim C2 at `p = 10⁻⁴`, `p_L = 10⁻¹⁰`, tightened to
`10⁻¹²`. -/
theorem claim_C2_code_distance_witness :
    (calculate_code_distance (1/10^4) (1/10^10) =
      .ok (max (nextOdd ⌈2 * Real.log (1 / ((1/10^10 : ℚ) : ℝ)) /
            Real.log ((1/100 : ℝ) / ((1/10^4 : ℚ) : ℝ))⌉) 3)) ∧
    (∀ d, calculate_code_distance (1/10^4) (1/10^10) = .ok d → Odd d ∧ 3 ≤ d) ∧
    ((1/10^12 : ℚ) ≤ 1/10^10 → ∀ d d',
      calculate_code_distance (1/10^4) (1/10^10) = .ok d →
      calculate_code_distance (1/10^4) (1/10^12) = .ok d' → d ≤ d') :=
  claim_C2_code_distance (1/10^4) (1/10^10) (1/10^12)
    (by norm_num) (by norm_num) (by norm_num) (by norm_num)

/-! ## Claim C3 -/

/-- Claim C3: for every estimator over a resolved config (code distance
present), `get_wall_clock_time` equals
`target_runtime * (1 + d/10) * (1 + magic_state_overhead_factor * 0.1) * 1.5`,
and is at least `target_runtime` whenever the target runtime is positive,
the magic-state overhead factor is non-negative, and the code distance is
non-negative (as any valid distance is). -/
theorem claim_C3_wall_clock :
    ∀ (e : DigitalResourceEstimator) (d : ℤ), e.config.code_distance = some d →
      (e.get_wall_clock_time =
        e.config.target_runtime * (1 + (d : ℚ)/10) *
          (1 + e.config.magic_state_overhead_factor * (1/10)) * (3/2)) ∧
      (0 < e.config.target_runtime → 0 ≤ e.config.magic_state_overhead_factor →
        0 ≤ d → e.config.target_runtime ≤ e.get_wall_clock_time) := by
  intro e d hd
  have hw : e.get_wall_clock_time =
      e.config.target_runtime * (1 + (d : ℚ)/10) *
        (1 + e.config.magic_state_overhead_factor * (1/10)) * (3/2) := by
    simp only [DigitalResourceEstimator.get_wall_clock_time, hd, Option.getD_some]
    ring
  refine ⟨hw, ?_⟩
  intro ht hm hd0
  have hdQ : (0:ℚ) ≤ (d : ℚ) := by exact_mod_cast hd0
  rw [hw]
  nlinarith [mul_nonneg ht.le hdQ, mul_nonneg ht.le hm,
    mul_nonneg (mul_nonneg ht.le hdQ) hm, ht]

/-- Witness for claim C3 with code distance 3 and default overheads. -/
theorem claim_C3_wall_clock_witness :
    (estimatorB.get_wall_clock_time =
      estimatorB.config.target_runtime * (1 + (3 : ℚ)/10) *
        (1 + estimatorB.config.magic_state_overhead_factor * (1/10)) * (3/2)) ∧
    estimatorB.config.target_runtime ≤ estimatorB.get_wall_clock_time := by
  have h := claim_C3_wall_clock estimatorB 3 rfl
  exact ⟨h.1, h.2 (by norm_num [estimatorB]) (by norm_num [estimatorB]) (by norm_num)⟩

/-! ## Claim C6 -/

/-- Counterexample to claim C6: with `t_gate_count = 1`,
`magic_state_overhead_factor = 1.5` and `qubits_per_logical = 1`, the code
computes `magic_state_qubits = int(1.5) = 1`, while round-to-nearest gives
`round(1.5) = 2` — `int()` truncates, it does not round. -/
theorem claim_C6_counterexample :
    (mkDigitalResourceEstimator
        { logical_qubits := 1, target_runtime := 1, digital_error_rate := 1/1000,
          code_distance := some 3, qubits_per_logical := some 1,
          t_gate_count := 1, magic_state_overhead_factor := 3/2 }).map
      (fun e => e.magic_state_qubits) ≠
      .ok (round ((1 : ℚ) * (3/2) * 1)) := by
  have h32 : ⌊(3/2 : ℚ)⌋ = 1 := by rw [Int.floor_eq_iff]; norm_num
  have hr : round ((1 : ℚ) * (3/2) * 1) = 2 := by
    have e1 : ((1:ℚ) * (3/2) * 1) = 3/2 := by norm_num
    have e2 : (3/2 + 1/2 : ℚ) = 2 := by norm_num
    rw [e1, round_eq, e2]
    exact_mod_cast Int.floor_intCast (α := ℚ) 2
  rw [hr]
  have hmk : (mkDigitalResourceEstimator
      { logical_qubits := 1, target_runtime := 1, digital_error_rate := 1/1000,
        code_distance := some 3, qubits_per_logical := some 1,
        t_gate_count := 1, magic_state_overhead_factor := 3/2 }).map
      (fun e => e.magic_state_qubits) = .ok 1 := by
    norm_num [mkDigitalResourceEstimator, DigitalResourceConfig.postInit,
      Except.bind, calculate_resources, pyInt, Except.map, h32]
  rw [hmk]
  simp

/-- Claim C6 as amended: `magic_state_qubits` and `compilation_qubits` are
obtained with Python `int(...)` — truncation toward zero (which agrees with
the floor on non-negative arguments), not round-to-nearest. -/
theorem claim_C6_amended :
    ∀ c : DigitalResourceConfig,
      ((calculate_resources c).map
          (fun e => (e.magic_state_qubits, e.compilation_qubits)) =
        (calculate_resources c).map
          (fun e =>
            (pyInt ((c.t_gate_count : ℚ) * c.magic_state_overhead_factor *
                (c.qubits_per_logical.getD 0 : ℚ)),
             pyInt ((e.data_qubits : ℚ) * (c.compilation_overhead_factor - 1))))) ∧
      (∀ q : ℚ, 0 ≤ q → pyInt q = ⌊q⌋) := by
  intro c
  constructor
  · by_cases hlgt : c.logical_gate_time.getD 0 = 0
    · simp [calculate_resources, hlgt, Except.map]
    · simp [calculate_resources, hlgt, Except.map]
  · intro q hq
    simp [pyInt, hq]

/-- Witness for the amended claim C6: the truncation agrees with the floor
at the non-negative input 3/2. -/
theorem claim_C6_amended_witness :
    ((calculate_resources estimatorB.config).map
        (fun e => (e.magic_state_qubits, e.compilation_qubits)) =
      (calculate_resources estimatorB.config).map
        (fun e =>
          (pyInt ((estimatorB.config.t_gate_count : ℚ) *
              estimatorB.config.magic_state_overhead_factor *
              (estimatorB.config.qubits_per_logical.getD 0 : ℚ)),
           pyInt ((e.data_qubits : ℚ) *
              (estimatorB.config.compilation_overhead_factor - 1))))) ∧
    pyInt (3/2) = ⌊(3/2 : ℚ)⌋ :=
  ⟨(claim_C6_amended estimatorB.config).1,
   (claim_C6_amended estimatorB.config).2 (3/2) (by norm_num)⟩

/-! ## Claim C9 -/

/-- Counterexample to claim C9: an explicit `code_distance = 0` is indeed
accepted by config construction, but then `logical_gate_time = 0`, and the
downstream estimator raises ZeroDivisionError instead of computing all
resource quantities. -/
theorem claim_C9_counterexample :
    exceptOk (DigitalResourceConfig.postInit
      { logical_qubits := 1, target_runtime := 1, digital_error_rate := 1/1000,
        code_distance := some 0 }) = true ∧
    mkDigitalResourceEstimator
      { logical_qubits := 1, target_runtime := 1, digital_error_rate := 1/1000,
        code_distance := some 0 } = .error "ZeroDivisionError" := by
  constructor
  · simp [DigitalResourceConfig.postInit, exceptOk]
  · norm_num [mkDigitalResourceEstimator, DigitalResourceConfig.postInit,
      Except.bind, calculate_resources]

/-- Claim C9 as amended: an explicitly supplied `code_distance` of any
value — even, below 3, zero or negative — passes construction with no
validation, and `qubits_per_logical = 2 * d²` and
`logical_gate_time = d * physical_gate_time` are derived from it as given;
the downstream estimator quantities are then computed from those values
whenever the resulting `logical_gate_time` is nonzero (for
`logical_gate_time = 0`, e.g. `d = 0`, the estimator raises a
division-by-zero error instead). -/
theorem claim_C9_amended :
    ∀ (c : DigitalResourceConfig) (k : ℤ),
      c.code_distance = some k → c.qubits_per_logical = none →
      c.logical_gate_time = none →
      ∃ c', DigitalResourceConfig.postInit c = .ok c' ∧
        c'.code_distance = some k ∧
        c'.qubits_per_logical = some (2 * k ^ 2) ∧
        c'.logical_gate_time = some ((k : ℚ) * c.physical_gate_time) ∧
        ((k : ℚ) * c.physical_gate_time ≠ 0 →
          (calculate_resources c').map (fun e => e.data_qubits) =
            .ok (c.logical_qubits * (2 * k ^ 2))) := by
  intro c k hk hq hl
  refine ⟨{ c with
    code_distance := some k
    qubits_per_logical := some (2 * k ^ 2)
    logical_gate_time := some ((k : ℚ) * c.physical_gate_time)
    error_correction_cycle_time :=
      some (c.error_correction_cycle_time.getD ((k : ℚ) * c.physical_gate_time)) },
    ?_, rfl, rfl, rfl, ?_⟩
  · simp [DigitalResourceConfig.postInit, hk, hq, hl]
  · intro hne
    simp [calculate_resources, hne, Except.map]

/-- Witness for the amended claim C9 at the even, negative distance
`k = -4`: accepted with `qubits_per_logical = 32` and downstream values
computed as given. -/
theorem claim_C9_amended_witness :
    ∃ c', DigitalResourceConfig.postInit
        { logical_qubits := 2, target_runtime := 1,
          digital_error_rate := 1/1000, code_distance := some (-4) } = .ok c' ∧
      c'.code_distance = some (-4) ∧
      c'.qubits_per_logical = some (2 * (-4 : ℤ) ^ 2) ∧
      c'.logical_gate_time = some (((-4 : ℤ) : ℚ) * (1/10)) ∧
      (((-4 : ℤ) : ℚ) * (1/10) ≠ 0 →
        (calculate_resources c').map (fun e => e.data_qubits) =
          .ok (2 * (2 * (-4 : ℤ) ^ 2))) :=
  claim_C9_amended
    { logical_qubits := 2, target_runtime := 1,
      digital_error_rate := 1/1000, code_distance := some (-4) }
    (-4) rfl rfl rfl

/-! ## Claim C7 -/

theorem postInit_preserves_mrm (c c1 : AnalogSimulatorConfig)
    (h : c.postInit = .ok c1) :
    c1.max_runtime_multiplier = c.max_runtime_multiplier := by
  unfold AnalogSimulatorConfig.postInit at h
  split at h
  · injection h with h
    subst h
    rfl
  · split at h
    · cases h
    · injection h with h
      subst h
      rfl

/-- Claim C7: a zero analog feasible runtime (as arises from
`max_runtime_multiplier = 0`) makes the comparison computation raise a
ZeroDivisionError at the `runtime_ratio` division, rather than silently
returning an infinite ratio. -/
theorem claim_C7_zero_feasible_runtime :
    (∀ (c : AnalogSimulatorConfig) (s : AnalogSimulator),
      mkAnalogSimulator c = .ok s → c.max_runtime_multiplier = 0 →
      s.feasible_runtime = 0) ∧
    (∀ (a : AnalogSimulator) (e : DigitalResourceEstimator),
      a.feasible_runtime = 0 →
      generate_comparison_section a e = .error "ZeroDivisionError") := by
  constructor
  · intro c s h hm
    unfold mkAnalogSimulator at h
    cases hp : c.postInit with
    | error msg => rw [hp] at h; simp at h
    | ok c1 =>
        rw [hp] at h
        simp only [exceptOkBind] at h
        cases ht : calculate_system_t1 (c1.qubit_t1_times.getD []) with
        | error msg => rw [ht] at h; simp at h
        | ok t1 =>
            rw [ht] at h
            simp only [exceptOkBind, exceptPureEq] at h
            injection h with h
            subst h
            show t1 * c1.max_runtime_multiplier = 0
            rw [postInit_preserves_mrm c c1 hp, hm, mul_zero]
  · intro a e h
    simp [generate_comparison_section, pyDiv, h]

/-- Witness for claim C7: a simulator built with
`max_runtime_multiplier = 0` makes the comparison raise. -/
theorem claim_C7_zero_feasible_runtime_witness :
    generate_comparison_section analogZeroMult estimatorB =
      .error "ZeroDivisionError" := by
  have hmk : mkAnalogSimulator
      { circuit_width := 1, qubit_t1_times := some [100],
        max_runtime_multiplier := 0 } = .ok analogZeroMult := by
    norm_num [mkAnalogSimulator, AnalogSimulatorConfig.postInit,
      calculate_system_t1, sumReciprocals, analogZeroMult]
  exact claim_C7_zero_feasible_runtime.2 analogZeroMult estimatorB
    (claim_C7_zero_feasible_runtime.1 _ analogZeroMult hmk rfl)
